import Mathlib

/-!
Verification of the gantry build pipeline: a shallow embedding of the
manifest data model (`src/gantry/build_manifest.py`), the service
definition model (`src/gantry/services.py`), the Traefik routing provider
(`src/gantry/routers/traefik/_config.py` and `_provider.py`), the Compose
service conversion (`src/gantry/targets/compose.py`), the image target's
build-folder handling (`src/gantry/targets/image.py`) and the CLI build
loop (`src/gantry/cli/build.py`), together with theorems about the
properties the specification states for them.
-/

set_option autoImplicit false

namespace Gantry

/-! ### POSIX path model

The Python code manipulates `pathlib` paths.  A `pathlib.PurePosixPath` is
an absolute-flag plus a normalized list of components: constructing a path
from a string splits it on the slash character and drops empty and `.`
segments, `as_posix` joins the components back with slashes, and `name` is
the final component (or the empty string when there is none).  The
functions below model exactly that. -/

/-- Split a character list on the slash character, keeping empty segments,
as Python's string split does. -/
def splitSlash : List Char → List (List Char)
  | [] => [[]]
  | c :: rest =>
    if c = '/' then [] :: splitSlash rest
    else
      match splitSlash rest with
      | [] => [[c]]
      | a :: as => (c :: a) :: as

/-- Join segments with a slash character, as Python joins path parts. -/
def joinSlash : List (List Char) → List Char
  | [] => []
  | [a] => a
  | a :: b :: rest => a ++ '/' :: joinSlash (b :: rest)

/-- A `pathlib` pure POSIX path: the absolute flag and the normalized list
of components. -/
structure GPath where
  absolute : Bool
  parts : List String
deriving DecidableEq, Repr

/-- The final path component, as `pathlib`'s `name` property (empty string
when the path has no components). -/
def GPath.name (p : GPath) : String :=
  (p.parts.getLast?).getD ""

/-- Render the path as a POSIX string, as `Path.as_posix()` does: parts
joined with slashes, a leading slash when absolute, and a lone dot for the
empty relative path. -/
def GPath.asPosix (p : GPath) : String :=
  match p.absolute, p.parts with
  | true, ps => String.mk ('/' :: joinSlash (ps.map String.data))
  | false, [] => "."
  | false, ps => String.mk (joinSlash (ps.map String.data))

/-- Construct a path from a string, as `pathlib.Path(s)` does: the path is
absolute when the string starts with a slash, and the components are the
slash-separated segments with empty and dot segments dropped. -/
def parsePath (s : String) : GPath :=
  { absolute := s.data.head? == some '/',
    parts := ((splitSlash s.data).map String.mk).filter
      (fun c => !(c == "") && !(c == ".")) }

/-- A path is in `pathlib` normal form when every component is nonempty,
is not the dot segment, and contains no slash.  Every path a Python
`pathlib.Path` object can hold is of this form. -/
def pathNormalized (p : GPath) : Prop :=
  ∀ c ∈ p.parts, c ≠ "" ∧ c ≠ "." ∧ '/' ∉ c.data

/-! ### Build manifest (`src/gantry/build_manifest.py`)

The manifest is an ordered list of entries.  Each entry is either a
Docker Compose entry (a path to the `docker-compose.yml` file plus a
deployability flag) or an image entry (image name plus a path to its
`Dockerfile`).  The Python constructors raise
`BuildManifestBadFilePathError` from `__post_init__` when the final path
component is not the required filename; that is modelled here by smart
constructors returning `Except`. -/

/-- Errors raised by the build-manifest module
(`gantry.exceptions.BuildManifestBadFilePathError`). -/
inductive BMErr where
  | badFilePath (field : String) (expected : String) (actual : String)
deriving DecidableEq, Repr

/-- A build-manifest entry: the tagged union over the `type` discriminant
(`docker-compose` or `image`). -/
inductive Entry where
  | dockerCompose (composeFile : GPath) (isDeployable : Bool)
  | image (image : String) (source : GPath)
deriving DecidableEq, Repr

/-- Constructor of `DockerComposeEntry`: `__post_init__` raises unless the
final path component is exactly `docker-compose.yml`. -/
def mkDockerComposeEntry (composeFile : GPath) (isDeployable : Bool) :
    Except BMErr Entry :=
  if composeFile.name = "docker-compose.yml" then
    .ok (.dockerCompose composeFile isDeployable)
  else
    .error (.badFilePath "compose-file" "docker-compose.yml" composeFile.name)

/-- Constructor of `ImageEntry`: `__post_init__` raises unless the final
path component is exactly `Dockerfile`. -/
def mkImageEntry (image : String) (source : GPath) : Except BMErr Entry :=
  if source.name = "Dockerfile" then
    .ok (.image image source)
  else
    .error (.badFilePath "source" "Dockerfile" source.name)

/-- The serialized form of one entry, as `Entry.to_dict` produces it: the
`type` tag plus the entry's fields, with paths rendered by `as_posix` and
`is-deployable` written only when it is `False` (absent means `True`). -/
inductive EntryDict where
  | composeD (composeFile : String) (isDeployable : Option Bool)
  | imageD (image : String) (source : String)
deriving DecidableEq, Repr

/-- `DockerComposeEntry.to_dict` / `ImageEntry.to_dict`. -/
def Entry.toDict : Entry → EntryDict
  | .dockerCompose cf dep => .composeD cf.asPosix (if dep then none else some false)
  | .image img src => .imageD img src.asPosix

/-- A build manifest.  The entry list is the ordered `_entries` list of the
Python class.

Modelled from the spec: the optional `name` field (a free-text build
identifier serialized at the top level of the manifest JSON).  The copy of
`build_manifest.py` staged under `src/` predates the field, but the
repository's tests (`test_build_manifest.py`), the `GenerateOrUpdateManifestFile`
stage in `targets/compose.py` and the spec's persisted-manifest interface
all use a manifest name that `save` writes and `load` reads back. -/
structure BuildManifest where
  name : String
  entries : List Entry
deriving DecidableEq, Repr

/-- The JSON document `BuildManifest.save` writes: the manifest name and
the serialized entries, in order.  JSON serialization itself is injective
on this shape, so the document is modelled structurally. -/
structure ManifestDoc where
  name : String
  contents : List EntryDict
deriving DecidableEq, Repr

/-- `BuildManifest.save`: serialize every entry with `to_dict`, in order. -/
def BuildManifest.save (m : BuildManifest) : ManifestDoc :=
  { name := m.name, contents := m.entries.map Entry.toDict }

/-- The entry-reconstruction loop of `BuildManifest.load`: dispatch on the
`type` tag, defaulting `is-deployable` to `True` when absent, re-running
each entry's constructor (and hence its path validation). -/
def loadEntries : List EntryDict → Except BMErr (List Entry)
  | [] => .ok []
  | d :: rest => do
    let e ← (match d with
      | .composeD cf dep => mkDockerComposeEntry (parsePath cf) (dep.getD true)
      | .imageD img src => mkImageEntry img (parsePath src))
    let es ← loadEntries rest
    .ok (e :: es)

/-- `BuildManifest.load` on a parsed manifest document.  Schema validation
(`validate_object`, an external collaborator in the spec's terms) accepts
every document produced by `save`, which is the only shape `ManifestDoc`
can hold, so it does not appear as a separate failure case here. -/
def BuildManifest.load (doc : ManifestDoc) : Except BMErr BuildManifest := do
  let es ← loadEntries doc.contents
  .ok { name := doc.name, entries := es }

/-- The structural invariant of an entry: its path ends in the required
filename.  `mkDockerComposeEntry`/`mkImageEntry` enforce it. -/
def entryValid : Entry → Prop
  | .dockerCompose cf _ => cf.name = "docker-compose.yml"
  | .image _ src => src.name = "Dockerfile"

/-- The entry's path is in `pathlib` normal form (always true of paths
held by Python `Path` objects). -/
def entryNormalized : Entry → Prop
  | .dockerCompose cf _ => pathNormalized cf
  | .image _ src => pathNormalized src

instance (p : GPath) : Decidable (pathNormalized p) :=
  show Decidable (∀ c ∈ p.parts, c ≠ "" ∧ c ≠ "." ∧ '/' ∉ c.data) from inferInstance

instance : DecidablePred entryValid := fun e =>
  match e with
  | .dockerCompose cf _ => show Decidable (cf.name = "docker-compose.yml") from inferInstance
  | .image _ src => show Decidable (src.name = "Dockerfile") from inferInstance

instance : DecidablePred entryNormalized := fun e =>
  match e with
  | .dockerCompose cf _ => show Decidable (pathNormalized cf) from inferInstance
  | .image _ src => show Decidable (pathNormalized src) from inferInstance

/-! ### YAML/JSON values

The service definition dictionaries hold strings, integers, booleans,
lists and nested mappings.  `JVal` models those values, together with
Python's `str()`, truthiness and `len()` on them. -/

/-- A YAML/JSON value as the Python code manipulates it. -/
inductive JVal where
  | s (v : String)
  | i (v : Int)
  | b (v : Bool)
  | arr (elems : List JVal)
  | obj (fields : List (String × JVal))

/-- Python `str()` of a scalar value.  The service schema restricts
environment values to strings and integers (booleans parse as Python
bools), so the collection cases never reach `str()` in the modelled
code paths. -/
def pyStr : JVal → String
  | .s v => v
  | .i v => toString v
  | .b true => "True"
  | .b false => "False"
  | .arr _ => ""
  | .obj _ => ""

/-- Python truthiness of a value. -/
def jTruthy : JVal → Bool
  | .s v => !(v == "")
  | .i v => !(v == 0)
  | .b v => v
  | .arr l => !l.isEmpty
  | .obj l => !l.isEmpty

/-- Python `len()`: defined on strings and collections, a `TypeError`
(modelled as `none`) elsewhere. -/
def pyLen : JVal → Option Nat
  | .s v => some v.length
  | .i _ => none
  | .b _ => none
  | .arr l => some l.length
  | .obj l => some l.length

/-- An empty Python collection (empty list or empty dict). -/
def isEmptyColl : JVal → Bool
  | .arr [] => true
  | .obj [] => true
  | _ => false

/-- Python dict assignment `d[k] = v` on an insertion-ordered mapping:
replace in place when the key exists, append otherwise. -/
def insertOrReplace : List (String × JVal) → String → JVal → List (String × JVal)
  | [], k, v => [(k, v)]
  | (k2, v2) :: rest, k, v =>
    if k2 == k then (k2, v) :: rest else (k2, v2) :: insertOrReplace rest k v

/-! ### Service definitions (`src/gantry/services.py`)

A `ServiceDefinition` wraps the schema-validated definition dictionary.
`ServiceDef` mirrors that dictionary: each optional field is `none`
exactly when the corresponding top-level key is absent.  The derived
properties below reproduce the Python properties. -/

/-- The protocol of a service port (`gantry.resources.PortType`); schema
validation restricts the YAML value to `tcp` or `udp`. -/
inductive PortProtocol where
  | tcp
  | udp
deriving DecidableEq, Repr

/-- A `files` entry (`gantry.resources.PathMapping`): `read-only` is
recorded only when the key is present (it defaults to true). -/
structure FileMapping where
  internal : String
  external : String
  readOnly : Option Bool

/-- `PathMapping.__str__`: `external:internal` plus `:ro` when read-only. -/
def FileMapping.str (f : FileMapping) : String :=
  let base := f.external ++ ":" ++ f.internal
  if f.readOnly.getD true then base ++ ":ro" else base

/-- A `service-ports` entry (`gantry.resources.PortMapping`); `protocol`
is recorded only when the key is present (it defaults to `tcp`). -/
structure PortMapping where
  internal : Int
  external : Int
  protocol : Option PortProtocol

/-- `PortMapping.__str__`: `external:internal` plus `/udp` for UDP. -/
def PortMapping.str (p : PortMapping) : String :=
  let base := toString p.external ++ ":" ++ toString p.internal
  match p.protocol with
  | some .udp => base ++ "/udp"
  | _ => base

/-- The raw `entrypoint` key: either a bare route string or an object
with a `routes` list and an optional `listens-on` port. -/
inductive EntrypointDef where
  | str (route : String)
  | obj (routes : List String) (listensOn : Option Int)
deriving DecidableEq, Repr

/-- A service definition dictionary after schema validation.  Field names
follow the YAML keys: `buildArgs` is `build-args`, `entrypointDef` is the
raw `entrypoint` value, and so on.  `folder` is the `_folder` attribute
(set when the definition was loaded from a service folder).

The `healthcheck` field is modelled from the spec: the staged copy of
`services.py` predates the `healthcheck` property that
`targets/compose.py` reads, and the spec records that a service may
declare an optional `healthcheck` whose absence disables the healthcheck
in the Compose output. -/
structure ServiceDef where
  name : String
  image : Option String
  buildArgs : Option (List (String × JVal))
  environmentDef : Option (List (String × JVal))
  filesDef : Option (List (String × FileMapping))
  servicePortsDef : Option (List (String × PortMapping))
  volumesDef : Option (List (String × String))
  metadata : Option (List (String × JVal))
  entrypointDef : Option EntrypointDef
  healthcheck : Option JVal
  folder : Option GPath

/-- A service definition dictionary with only a name, as a convenient
base for concrete examples. -/
def emptyService (name : String) : ServiceDef :=
  ⟨name, none, none, none, none, none, none, none, none, none, none⟩

/-- `ServiceDefinition.build_args`: the `build-args` mapping, empty when
the key is absent. -/
def ServiceDef.build_args (d : ServiceDef) : List (String × JVal) :=
  d.buildArgs.getD []

/-- `ServiceDefinition.environment`: the environment mapping as a list of
key/value pairs, empty when the key is absent. -/
def ServiceDef.environment (d : ServiceDef) : List (String × JVal) :=
  d.environmentDef.getD []

/-- `ServiceDefinition.files`: the path-mapping entries, empty when the
key is absent. -/
def ServiceDef.files (d : ServiceDef) : List (String × FileMapping) :=
  d.filesDef.getD []

/-- `ServiceDefinition.service_ports`: the port-mapping entries, empty
when the key is absent. -/
def ServiceDef.service_ports (d : ServiceDef) : List (String × PortMapping) :=
  d.servicePortsDef.getD []

/-- `ServiceDefinition.volumes`: every declared volume name is rewritten
to `service-name + "-" + volume-name`. -/
def ServiceDef.volumes (d : ServiceDef) : List (String × String) :=
  (d.volumesDef.getD []).map (fun kv => (d.name ++ "-" ++ kv.1, kv.2))

/-- The value held by `ServiceDefinition.Entrypoint.routes`: the Python
named tuple stores either the bare string of the string form or the list
of the object form. -/
inductive RouteVal where
  | str (s : String)
  | list (l : List String)
deriving DecidableEq, Repr

/-- `ServiceDefinition.Entrypoint`. -/
structure Entrypoint where
  routes : RouteVal
  listens_on : Int
deriving DecidableEq, Repr

/-- `ServiceDefinition.entrypoint`: string form keeps the string, object
form keeps the `routes` list with `listens-on` defaulting to 80, and an
absent key yields the route `/name` on port 80. -/
def ServiceDef.entrypoint (d : ServiceDef) : Entrypoint :=
  match d.entrypointDef with
  | none => ⟨.str ("/" ++ d.name), 80⟩
  | some (.str s) => ⟨.str s, 80⟩
  | some (.obj routes listensOn) => ⟨.list routes, listensOn.getD 80⟩

/-- Python iteration over `entrypoint.routes`: iterating a list yields
its elements, iterating a string yields its characters as one-character
strings.  `register_service` iterates the routes this way. -/
def routesIter : RouteVal → List String
  | .str s => s.data.map (fun c => String.mk [c])
  | .list l => l

/-- Membership of `key` in the top-level definition dictionary
(`key in self._definition`): the dictionary holds exactly the YAML keys
whose fields are present. -/
def ServiceDef.hasKey (d : ServiceDef) (key : String) : Bool :=
  key == "name" ||
  (d.image.isSome && key == "image") ||
  (d.buildArgs.isSome && key == "build-args") ||
  (d.environmentDef.isSome && key == "environment") ||
  (d.filesDef.isSome && key == "files") ||
  (d.servicePortsDef.isSome && key == "service-ports") ||
  (d.volumesDef.isSome && key == "volumes") ||
  (d.metadata.isSome && key == "metadata") ||
  (d.entrypointDef.isSome && key == "entrypoint") ||
  (d.healthcheck.isSome && key == "healthcheck")

/-- Errors raised by the service/routing code, modelled as values:
`ValueError` for an existing metadata key in `set_metadata` and for a
duplicate route in `TraefikConfig.add_route`. -/
inductive SvcErr where
  | keyExists (key : String)
  | duplicateRoute (route : String)
deriving DecidableEq, Repr

/-- Replace a service definition's metadata mapping, leaving every other
field unchanged. -/
def ServiceDef.withMetadata (d : ServiceDef) (m : Option (List (String × JVal))) :
    ServiceDef :=
  ⟨d.name, d.image, d.buildArgs, d.environmentDef, d.filesDef, d.servicePortsDef,
    d.volumesDef, m, d.entrypointDef, d.healthcheck, d.folder⟩

/-- The body of `set_metadata` after the `metadata` key has been ensured:
raise when `override` is false and the key is already present — in the
top-level definition dictionary, which is what the Python code tests
(`if key in self._definition`) — and otherwise assign into the metadata
mapping. -/
def setMetadataCore (d1 : ServiceDef) (key : String) (value : JVal)
    (override : Bool) : Except SvcErr ServiceDef :=
  if d1.hasKey key && !override then .error (.keyExists key)
  else .ok (d1.withMetadata (some (insertOrReplace (d1.metadata.getD []) key value)))

/-- `ServiceDefinition.set_metadata`: first ensure the `metadata` key
exists (`self._definition['metadata'] = {}` when absent), then run the
existence check and the assignment. -/
def ServiceDef.set_metadata (d : ServiceDef) (key : String) (value : JVal)
    (override : Bool) : Except SvcErr ServiceDef :=
  setMetadataCore
    (match d.metadata with
     | none => d.withMetadata (some [])
     | some _ => d)
    key value override

/-! ### Traefik routing provider
(`src/gantry/routers/traefik/_config.py` and `_provider.py`) -/

/-- `TraefikConfig`: route prefixes, listen port, optional downstream
service and the TLS flag. -/
structure TraefikConfig where
  enableTls : Bool
  port : Option Int
  routes : Option (List String)
  service : Option String

/-- `TraefikConfig.add_route`: appends the route, raising `ValueError`
when the same route string was already added. -/
def TraefikConfig.addRoute (c : TraefikConfig) (route : String) :
    Except SvcErr TraefikConfig :=
  let rs := c.routes.getD []
  if rs.contains route then .error (.duplicateRoute route)
  else .ok ⟨c.enableTls, c.port, some (rs ++ [route]), c.service⟩

/-- The `for url in entrypoint.routes: config.add_route(url)` loop of
`register_service`. -/
def addAllRoutes (c : TraefikConfig) : List String → Except SvcErr TraefikConfig
  | [] => .ok c
  | r :: rest =>
    match c.addRoute r with
    | .error e => .error e
    | .ok c2 => addAllRoutes c2 rest

/-- The Traefik rule string: `PathPrefix` clauses joined by double pipes
in the order the routes were added. -/
def ruleString (routes : List String) : String :=
  " || ".intercalate (routes.map (fun route => "PathPrefix(`" ++ route ++ "`)"))

/-- The port label: present when the stored port is truthy (set and
nonzero). -/
def TraefikConfig.portLabels (c : TraefikConfig) (name : String) :
    List (String × JVal) :=
  match c.port with
  | some p =>
    if p ≠ 0 then
      [("traefik.http.services." ++ name ++ ".loadbalancer.server.port", .i p)]
    else []
  | none => []

/-- The rule label: present when the route list is truthy (set and
nonempty). -/
def TraefikConfig.routeLabels (c : TraefikConfig) (name : String) :
    List (String × JVal) :=
  match c.routes with
  | some rs => if rs ≠ [] then [("traefik.http.routers." ++ name ++ ".rule", .s (ruleString rs))] else []
  | none => []

/-- The downstream-service label: present when the stored service name is
truthy (set and nonempty). -/
def TraefikConfig.serviceLabels (c : TraefikConfig) (name : String) :
    List (String × JVal) :=
  match c.service with
  | some sv => if sv ≠ "" then [("traefik.http.routers." ++ name ++ ".service", .s sv)] else []
  | none => []

/-- The TLS label: present only when TLS is enabled. -/
def TraefikConfig.tlsLabels (c : TraefikConfig) (name : String) :
    List (String × JVal) :=
  if c.enableTls then [("traefik.http.routers." ++ name ++ ".tls", .b true)] else []

/-- `TraefikConfig.to_labels`: `traefik.enable` is always written first,
then the port, rule, service and TLS labels in that insertion order. -/
def TraefikConfig.toLabels (c : TraefikConfig) (name : String) :
    List (String × JVal) :=
  ("traefik.enable", .b true) ::
    (c.portLabels name ++ c.routeLabels name ++ c.serviceLabels name ++ c.tlsLabels name)

/-- The `for key, value in config.to_labels(...).items()` loop of
`register_service`: sequential `set_metadata` calls with the default
`override=False`. -/
def setLabels (s : ServiceDef) : List (String × JVal) → Except SvcErr ServiceDef
  | [] => .ok s
  | (k, v) :: rest =>
    match s.set_metadata k v false with
    | .error e => .error e
    | .ok s2 => setLabels s2 rest

/-- `TraefikRoutingProvider.register_service`: build a `TraefikConfig`
from the provider's `enable-tls` argument and the service's entrypoint,
then write every generated label into the service's metadata.
`enableTlsArg` is `self.args.get('enable-tls', False)`. -/
def registerService (enableTlsArg : Bool) (service : ServiceDef) :
    Except SvcErr ServiceDef :=
  match addAllRoutes ⟨enableTlsArg, some service.entrypoint.listens_on, none, none⟩
      (routesIter service.entrypoint.routes) with
  | .error e => .error e
  | .ok c => setLabels service (c.toLabels service.name)

/-- The router's own service name.  Modelled from the spec: `_provider.py`
imports `DEFAULT_SERVICE_NAME` from `routers.provider`, whose staged copy
predates the constant; the value is pinned by the hard-coded
`traefik.http.routers.proxy.service` label in `generate_service` and by
the repository tests. -/
def DEFAULT_SERVICE_NAME : String := "proxy"

/-- `TRAEFIK_IMAGE` from `_provider.py`. -/
def TRAEFIK_IMAGE : String := "traefik:v2.10.1"

/-- `DOCKER_SOCKET` from `_provider.py`. -/
def DOCKER_SOCKET : String := "/var/run/docker.sock"

/-- `TRAEFIK_CONFIG` from `_provider.py`. -/
def TRAEFIK_CONFIG : String := "/etc/traefik/traefik.yml"

/-- The Traefik provider's arguments, with the defaults the provider
reads through `args.get`: dashboards and the API default to off, TLS
defaults to off, the Docker socket mapping defaults to on. -/
structure TraefikArgs where
  enableDashboard : Bool
  enableApi : Bool
  enableTls : Bool
  mapSocket : Bool
  socket : Option String
  dynamicConfig : Option GPath
  configFile : String

/-- The provider arguments a group without explicit router arguments
produces: every `args.get` falls back to its default. -/
def defaultTraefikArgs (configFile : String) : TraefikArgs :=
  ⟨false, false, false, true, none, none, configFile⟩

/-- `TraefikRoutingProvider.generate_service`: the synthetic definition
of the router's own service.  Enabling the dashboard implies the API;
routes, file mounts, ports and metadata are assembled exactly as the
Python dictionary literal builds them. -/
def generateService (args : TraefikArgs) : ServiceDef :=
  let enableApi := args.enableDashboard || args.enableApi
  let routes : List String :=
    (if enableApi then ["/api"] else []) ++
    (if args.enableDashboard then ["/dashboard"] else [])
  let files0 : List (String × FileMapping) :=
    [("static-config", ⟨TRAEFIK_CONFIG, args.configFile, none⟩)]
  let ports0 : List (String × PortMapping) := [("http", ⟨80, 80, none⟩)]
  let ports1 := if args.enableTls then ports0 ++ [("https", ⟨443, 443, none⟩)] else ports0
  let files1 :=
    if args.mapSocket then
      files0 ++ [("docker-socket", ⟨DOCKER_SOCKET, args.socket.getD DOCKER_SOCKET, none⟩)]
    else files0
  let files2 := match args.dynamicConfig with
    | some dc => files1 ++ [("dynamic-config", ⟨"/" ++ dc.name, dc.asPosix, none⟩)]
    | none => files1
  let md : List (String × JVal) :=
    if enableApi || args.enableDashboard then
      [("traefik.http.routers.proxy.service", .s "api@internal")]
    else [("enable", .b true)]
  ⟨DEFAULT_SERVICE_NAME, some TRAEFIK_IMAGE, none, none, some files2, some ports1,
    none, some md, some (.obj routes none), none, none⟩

/-! ### Compose service conversion (`src/gantry/targets/compose.py`) -/

/-- `folder.relative_to(folder.parent).as_posix()`: the folder's own name
as a relative path (a lone dot when the folder has no components). -/
def GPath.lastComponent (p : GPath) : String :=
  match p.parts.getLast? with
  | some c => c
  | none => "."

/-- The `image`/`build` keys emitted when the service has no (truthy)
`image`: the image is `name:tag`, the build context is the service's own
folder name, and `build.args` is added when build arguments were
declared. -/
def buildImagePart (service : ServiceDef) (tag : String) : List (String × JVal) :=
  let context := match service.folder with
    | some f => f.lastComponent
    | none => "."
  let argsPart : List (String × JVal) :=
    if !service.build_args.isEmpty then [("args", .obj service.build_args)] else []
  [("image", .s (service.name ++ ":" ++ tag)),
   ("build", .obj (("context", .s context) :: argsPart))]

/-- Python `if not service.healthcheck`: the key is absent or its value
is falsy. -/
def healthcheckAbsent (h : Option JVal) : Bool :=
  match h with
  | none => true
  | some v => !jTruthy v

/-- The `image` key (and, for built services, the `build` key): a truthy
`image` value is used verbatim, otherwise the service builds from its own
folder. -/
def composeImagePart (service : ServiceDef) (tag : String) : List (String × JVal) :=
  match service.image with
  | some img =>
    if img ≠ "" then [("image", .s img)] else buildImagePart service tag
  | none => buildImagePart service tag

/-- The keys written before the `healthcheck` key, in the source's
insertion order: `container_name`, the image/build keys, `environment`,
`restart`, `ports`, `networks` and `volumes`. -/
def composePre (service : ServiceDef) (network tag : String) : List (String × JVal) :=
  ("container_name", .s service.name) :: composeImagePart service tag ++
  [("environment", .obj (service.environment.map (fun kv => (kv.1, JVal.s (pyStr kv.2))))),
   ("restart", .s "unless-stopped"),
   ("ports", .arr (service.service_ports.map (fun kv => JVal.s kv.2.str))),
   ("networks", .arr [.s network]),
   ("volumes", .arr (service.files.map (fun kv => JVal.s kv.2.str) ++
     service.volumes.map (fun kv => JVal.s (kv.1 ++ ":" ++ kv.2))))]

/-- The `healthcheck` key: written as `disable: true` exactly when the
service declares no (truthy) healthcheck. -/
def composeHealth (service : ServiceDef) : List (String × JVal) :=
  if healthcheckAbsent service.healthcheck then
    [("healthcheck", .obj [("disable", .b true)])]
  else []

/-- The `labels` key: the service metadata when it is truthy. -/
def composeLabelsPart (service : ServiceDef) : List (String × JVal) :=
  match service.metadata with
  | some md => if !md.isEmpty then [("labels", .obj md)] else []
  | none => []

/-- `_convert_to_compose_service`: assemble the Compose service
dictionary in the source's insertion order, then delete every key whose
value has `len() == 0`. -/
def convertToComposeService (service : ServiceDef) (network : String) (tag : String) :
    String × List (String × JVal) :=
  (service.name,
    (composePre service network tag ++ composeHealth service ++
      composeLabelsPart service).filter (fun kv => !(pyLen kv.2 == some 0)))

/-! ### Image target build-folder handling (`src/gantry/targets/image.py`)

`ImageTarget.build` removes an existing build folder wholesale, recreates
it, and only then runs the pipeline.  The filesystem is modelled as the
set of existing node paths. -/

/-- A filesystem: the set of paths at which a node (file or directory)
exists. -/
structure FileSys where
  paths : List GPath

/-- Node existence (`Path.exists`). -/
def FileSys.nodeExists (fs : FileSys) (p : GPath) : Bool :=
  decide (p ∈ fs.paths)

/-- Whether `root.parts` is an initial segment of `p.parts`. -/
def leadSegs : List String → List String → Bool
  | [], _ => true
  | _ :: _, [] => false
  | a :: as, b :: bs => a == b && leadSegs as bs

/-- `p` is `root` itself or lies inside the tree rooted at `root`. -/
def underOrEq (root p : GPath) : Bool :=
  (root.absolute == p.absolute) && leadSegs root.parts p.parts

/-- `p` lies strictly inside the tree rooted at `root`. -/
def strictlyUnder (root p : GPath) : Bool :=
  underOrEq root p && !(decide (p = root))

/-- `shutil.rmtree`: remove the root and everything below it. -/
def FileSys.rmtree (fs : FileSys) (root : GPath) : FileSys :=
  ⟨fs.paths.filter (fun p => !underOrEq root p)⟩

/-- All ancestor paths of `p`, from the filesystem root down to `p`
itself. -/
def ancestors (p : GPath) : List GPath :=
  (List.range (p.parts.length + 1)).map (fun i => ⟨p.absolute, p.parts.take i⟩)

/-- `Path.mkdir(parents=True)`: create the directory and any missing
ancestor. -/
def FileSys.mkdirParents (fs : FileSys) (p : GPath) : FileSys :=
  ⟨fs.paths ++ (ancestors p).filter (fun a => !decide (a ∈ fs.paths))⟩

/-- The build-folder reset at the start of `ImageTarget.build`: remove
the folder tree when it exists, then recreate the folder. -/
def prepareBuildFolder (fs : FileSys) (root : GPath) : FileSys :=
  let fs1 := if fs.nodeExists root then fs.rmtree root else fs
  fs1.mkdirParents root

/-- `ImageTarget.build`: the pipeline runs only on the filesystem state
left by the build-folder reset. -/
def imageTargetBuild (pipeline : FileSys → FileSys) (root : GPath) (fs : FileSys) :
    FileSys :=
  pipeline (prepareBuildFolder fs root)

/-- A well-formed filesystem: every existing node's ancestors exist. -/
def ancestorClosed (fs : FileSys) : Prop :=
  ∀ p ∈ fs.paths, ∀ a ∈ ancestors p, a ∈ fs.paths

instance (fs : FileSys) : Decidable (ancestorClosed fs) :=
  show Decidable (∀ p ∈ fs.paths, ∀ a ∈ ancestors p, a ∈ fs.paths) from inferInstance

/-! ### CLI build loop (`src/gantry/cli/build.py`)

The `build` command iterates the given service-group paths; each
iteration loads and builds one group inside a `try` whose handler
re-raises the failure as a `CliException`, which aborts the command. -/

/-- The `for path in services_paths` loop of the `build` command: `build`
is the per-group load-and-build step.  Returns the groups on which the
step was invoked, in order, and the error the command re-raises (as a
`CliException`) when a step fails.  A failing step ends the loop. -/
def cmdBuildLoop {γ ε : Type} (build : γ → Except ε Unit) :
    List γ → List γ × Option ε
  | [] => ([], none)
  | g :: rest =>
    match build g with
    | .ok _ =>
      let r := cmdBuildLoop build rest
      (g :: r.1, r.2)
    | .error e => ([g], some e)

/-- A per-group build step that fails on group `0` and succeeds on every
other group. -/
def failingOnZero : Nat → Except String Unit :=
  fun n => if n = 0 then .error "build failed" else .ok ()

/-! ### Concrete service definitions used as examples -/

/-- A service named `ab` whose `entrypoint` is the bare route string
`/ab`. -/
def serviceAB : ServiceDef :=
  ⟨"ab", none, none, none, none, none, none, none, some (.str "/ab"), none, none⟩

/-- A service named `foo` with no `entrypoint` key, so the default route
is `/foo`. -/
def serviceFoo : ServiceDef := emptyService "foo"

/-- The service `register_service` returns for `serviceAB`. -/
def registeredAB : ServiceDef :=
  match registerService false serviceAB with
  | .ok r => r
  | .error _ => emptyService "unreachable"

/-- A service whose metadata already contains the key `foo`. -/
def serviceWithFooMeta : ServiceDef :=
  ⟨"service", none, none, none, none, none, none, some [("foo", .i 1)], none, none, none⟩

/-- A service whose `entrypoint` is the object form with routes `/foo`,
`/bar` and `listens-on: 8080`. -/
def fooBarService : ServiceDef :=
  ⟨"svc", none, none, none, none, none, none, none,
    some (.obj ["/foo", "/bar"] (some 8080)), none, none⟩

/-- The router's synthetic service for a group with no explicit router
arguments. -/
def routerService : ServiceDef := generateService (defaultTraefikArgs "traefik.yml")

/-- The service `register_service` returns for the router's own synthetic
service. -/
def routerRegistered : ServiceDef :=
  match registerService false routerService with
  | .ok r => r
  | .error _ => emptyService "unreachable"

/-! ### Concrete manifest and filesystem examples -/

/-- A concrete manifest with entries of both kinds. -/
def exampleManifest : BuildManifest :=
  ⟨"services-compose",
    [.dockerCompose (parsePath "group-a/docker-compose.yml") true,
     .image "repo/image:1234" (parsePath "svc/Dockerfile"),
     .dockerCompose (parsePath "group-b/docker-compose.yml") false]⟩

/-- The build folder of the concrete example filesystem. -/
def exampleRoot : GPath := ⟨false, ["build"]⟩

/-- A concrete filesystem holding the build folder, a file inside it and
an unrelated sibling. -/
def exampleFs : FileSys :=
  ⟨[⟨false, []⟩, ⟨false, ["build"]⟩, ⟨false, ["build", "sub"]⟩, ⟨false, ["other"]⟩]⟩

/-! ### Theorems: the path model round trip -/

theorem splitSlash_ne_nil : ∀ l : List Char, splitSlash l ≠ []
  | [] => by simp [splitSlash]
  | c :: rest => by
    simp only [splitSlash]
    split
    · simp
    · split
      · simp
      · simp

theorem splitSlash_noSlash (a : List Char) (h : '/' ∉ a) : splitSlash a = [a] := by
  induction a with
  | nil => rfl
  | cons c cs ih =>
    have hc : ¬(c = '/') := by
      intro e
      exact h (e ▸ List.mem_cons_self c cs)
    have hcs : '/' ∉ cs := fun m => h (List.mem_cons_of_mem _ m)
    simp [splitSlash, hc, ih hcs]

theorem splitSlash_append (a : List Char) (rest : List Char) (h : '/' ∉ a) :
    splitSlash (a ++ '/' :: rest) = a :: splitSlash rest := by
  induction a with
  | nil => simp [splitSlash]
  | cons c cs ih =>
    have hc : ¬(c = '/') := by
      intro e
      exact h (e ▸ List.mem_cons_self c cs)
    have hcs : '/' ∉ cs := fun m => h (List.mem_cons_of_mem _ m)
    simp only [List.cons_append, splitSlash, if_neg hc, List.append_eq, ih hcs]

theorem splitSlash_joinSlash :
    ∀ ls : List (List Char), ls ≠ [] → (∀ a ∈ ls, '/' ∉ a) →
      splitSlash (joinSlash ls) = ls
  | [], h0, _ => absurd rfl h0
  | [a], _, h => by
    simp [joinSlash, splitSlash_noSlash a (h a (by simp))]
  | a :: b :: rest, _, h => by
    have tail := splitSlash_joinSlash (b :: rest) (by simp)
      (fun x hx => h x (List.mem_cons_of_mem _ hx))
    simp only [joinSlash, splitSlash_append a _ (h a (by simp)), tail]

theorem joinSlash_head (a : List Char) (ls : List (List Char)) (ha : a ≠ []) :
    (joinSlash (a :: ls)).head? = a.head? := by
  cases ls with
  | nil => rfl
  | cons b rest =>
    cases a with
    | nil => exact absurd rfl ha
    | cons c cs => rfl

theorem string_mk_data (s : String) : String.mk s.data = s := rfl

theorem map_mk_map_data (l : List String) :
    (l.map String.data).map String.mk = l := by
  rw [List.map_map]
  exact List.map_id'' (fun s => string_mk_data s) l

theorem filter_parts_eq_self (l : List String) (hl : ∀ c ∈ l, c ≠ "" ∧ c ≠ ".") :
    l.filter (fun c => !(c == "") && !(c == ".")) = l := by
  apply List.filter_eq_self.mpr
  intro a ha
  simp [(hl a ha).1, (hl a ha).2]

/-- Round trip of the path model: parsing the rendered POSIX string of a
normalized path returns the same path.  This is the `pathlib` behaviour
the manifest's save/load relies on. -/
theorem parsePath_asPosix (p : GPath) (h : pathNormalized p) :
    parsePath p.asPosix = p := by
  obtain ⟨abs, parts⟩ := p
  have hne : ∀ c ∈ parts, c ≠ "" ∧ c ≠ "." := fun c hc => ⟨(h c hc).1, (h c hc).2.1⟩
  cases abs with
  | true =>
    cases parts with
    | nil =>
      simp [GPath.asPosix, parsePath, joinSlash, splitSlash]
    | cons x xs =>
      have hmapne : (x :: xs).map String.data ≠ [] := by simp
      have hnos : ∀ a ∈ (x :: xs).map String.data, '/' ∉ a := by
        intro a ha
        obtain ⟨c, hc, rfl⟩ := List.mem_map.mp ha
        exact (h c hc).2.2
      have hsj := splitSlash_joinSlash _ hmapne hnos
      have hsj2 : splitSlash (joinSlash (x.data :: xs.map String.data)) =
          x.data :: xs.map String.data := by simpa using hsj
      have hsplit : splitSlash ('/' :: joinSlash ((x :: xs).map String.data)) =
          [] :: (x :: xs).map String.data := by
        show splitSlash ('/' :: joinSlash (x.data :: xs.map String.data)) =
          [] :: x.data :: xs.map String.data
        simp [splitSlash, hsj2]
      show GPath.mk _ _ = GPath.mk true (x :: xs)
      rw [GPath.mk.injEq]
      refine ⟨rfl, ?_⟩
      show (((splitSlash (String.mk ('/' :: joinSlash ((x :: xs).map String.data))).data).map
          String.mk).filter (fun c => !(c == "") && !(c == "."))) = x :: xs
      rw [show (String.mk ('/' :: joinSlash ((x :: xs).map String.data))).data =
        '/' :: joinSlash ((x :: xs).map String.data) from rfl, hsplit]
      simp only [List.map_cons, map_mk_map_data]
      rw [List.filter_cons]
      rw [if_neg (by simp)]
      exact filter_parts_eq_self _ hne
  | false =>
    cases parts with
    | nil =>
      simp [GPath.asPosix, parsePath, splitSlash]
    | cons x xs =>
      have hx := h x (List.mem_cons_self x xs)
      have hxdata : x.data ≠ [] := by
        intro e
        exact hx.1 (by rw [← string_mk_data x, e])
      have hmapne : (x :: xs).map String.data ≠ [] := by simp
      have hnos : ∀ a ∈ (x :: xs).map String.data, '/' ∉ a := by
        intro a ha
        obtain ⟨c, hc, rfl⟩ := List.mem_map.mp ha
        exact (h c hc).2.2
      have hsj := splitSlash_joinSlash _ hmapne hnos
      have hhead : (joinSlash ((x :: xs).map String.data)).head? = x.data.head? := by
        rw [show (x :: xs).map String.data = x.data :: xs.map String.data from rfl]
        exact joinSlash_head x.data (xs.map String.data) hxdata
      show GPath.mk _ _ = GPath.mk false (x :: xs)
      rw [GPath.mk.injEq]
      constructor
      · show ((String.mk (joinSlash ((x :: xs).map String.data))).data.head? ==
            some '/') = false
        rw [show (String.mk (joinSlash ((x :: xs).map String.data))).data =
          joinSlash ((x :: xs).map String.data) from rfl, hhead]
        cases hd : x.data with
        | nil => exact absurd hd hxdata
        | cons c cs =>
          have hcmem : c ∈ x.data := by rw [hd]; exact List.mem_cons_self c cs
          have hcne : c ≠ '/' := fun e => hx.2.2 (e ▸ hcmem)
          simp [hcne]
      · show (((splitSlash (String.mk (joinSlash ((x :: xs).map String.data))).data).map
            String.mk).filter (fun c => !(c == "") && !(c == "."))) = x :: xs
        rw [show (String.mk (joinSlash ((x :: xs).map String.data))).data =
          joinSlash ((x :: xs).map String.data) from rfl, hsj, map_mk_map_data]
        exact filter_parts_eq_self _ hne

/-! ### Helper lemma: manifest entry serialization -/

theorem loadEntries_save (es : List Entry)
    (h : ∀ e ∈ es, entryValid e ∧ entryNormalized e) :
    loadEntries (es.map Entry.toDict) = .ok es := by
  induction es with
  | nil => rfl
  | cons e rest ih =>
    have he := h e (List.mem_cons_self e rest)
    have hrest := ih (fun x hx => h x (List.mem_cons_of_mem _ hx))
    cases e with
    | dockerCompose cf dep =>
      have hrt : parsePath cf.asPosix = cf := parsePath_asPosix cf he.2
      have hv : cf.name = "docker-compose.yml" := he.1
      simp only [List.map_cons, Entry.toDict, loadEntries, mkDockerComposeEntry, hrt, hv,
        if_true, hrest, bind, Except.bind, if_pos]
      cases dep <;> rfl
    | image img src =>
      have hrt : parsePath src.asPosix = src := parsePath_asPosix src he.2
      have hv : src.name = "Dockerfile" := he.1
      simp only [List.map_cons, Entry.toDict, loadEntries, mkImageEntry, hrt, hv,
        if_true, hrest, bind, Except.bind, if_pos]

/-! ### Helper lemmas: insertion-ordered mappings -/

theorem lookup_insertOrReplace_self (l : List (String × JVal)) (k : String) (v : JVal) :
    List.lookup k (insertOrReplace l k v) = some v := by
  induction l with
  | nil => simp [insertOrReplace, List.lookup]
  | cons kv rest ih =>
    obtain ⟨k2, v2⟩ := kv
    by_cases hk : k2 = k
    · subst hk
      simp [insertOrReplace, List.lookup]
    · have hbeq : (k2 == k) = false := beq_eq_false_iff_ne.mpr hk
      have hbeq2 : (k == k2) = false := beq_eq_false_iff_ne.mpr (Ne.symm hk)
      simp [insertOrReplace, hbeq, List.lookup, hbeq2, ih]

theorem lookup_insertOrReplace_ne (l : List (String × JVal)) (k k2 : String) (v : JVal)
    (h : k2 ≠ k) :
    List.lookup k2 (insertOrReplace l k v) = List.lookup k2 l := by
  induction l with
  | nil =>
    simp [insertOrReplace, List.lookup, beq_eq_false_iff_ne.mpr h]
  | cons kv rest ih =>
    obtain ⟨k3, v3⟩ := kv
    by_cases hk : k3 = k
    · subst hk
      have hbeq : (k2 == k3) = false := beq_eq_false_iff_ne.mpr h
      simp [insertOrReplace, List.lookup, hbeq]
    · have hbeq3 : (k3 == k) = false := beq_eq_false_iff_ne.mpr hk
      cases hq : (k2 == k3) <;>
        simp [insertOrReplace, hbeq3, List.lookup, hq, ih]

theorem lookup_foldl_ior_ne (L : List (String × JVal)) (key : String)
    (hL : ∀ kv ∈ L, kv.1 ≠ key) (m : List (String × JVal)) :
    List.lookup key (L.foldl (fun acc kv => insertOrReplace acc kv.1 kv.2) m) =
      List.lookup key m := by
  induction L generalizing m with
  | nil => rfl
  | cons kv rest ih =>
    rw [List.foldl_cons,
      ih (fun x hx => hL x (List.mem_cons_of_mem _ hx)),
      lookup_insertOrReplace_ne _ _ _ _ (Ne.symm (hL kv (List.mem_cons_self _ _)))]

/-! ### Helper lemmas: `set_metadata` and label registration -/

theorem beq_lit_false_of_long {key : String} (lit : String) (h : 13 < key.length)
    (hlit : lit.length ≤ 13) : (key == lit) = false :=
  beq_eq_false_iff_ne.mpr (fun e => by subst e; omega)

theorem hasKey_long (d : ServiceDef) (key : String) (h : 13 < key.length) :
    d.hasKey key = false := by
  simp only [ServiceDef.hasKey,
    beq_lit_false_of_long "name" h (by decide),
    beq_lit_false_of_long "image" h (by decide),
    beq_lit_false_of_long "build-args" h (by decide),
    beq_lit_false_of_long "environment" h (by decide),
    beq_lit_false_of_long "files" h (by decide),
    beq_lit_false_of_long "service-ports" h (by decide),
    beq_lit_false_of_long "volumes" h (by decide),
    beq_lit_false_of_long "metadata" h (by decide),
    beq_lit_false_of_long "entrypoint" h (by decide),
    beq_lit_false_of_long "healthcheck" h (by decide),
    Bool.and_false, Bool.or_false]

theorem withMetadata_withMetadata (d : ServiceDef) (m1 m2 : Option (List (String × JVal))) :
    (d.withMetadata m1).withMetadata m2 = d.withMetadata m2 := rfl

theorem withMetadata_self (d : ServiceDef) (m : List (String × JVal))
    (h : d.metadata = some m) : d.withMetadata (some m) = d := by
  obtain ⟨n, i, ba, e, f, sp, vo, md, ep, hc, fo⟩ := d
  subst h
  rfl

theorem set_metadata_long (d : ServiceDef) (key : String) (v : JVal)
    (h : 13 < key.length) :
    d.set_metadata key v false =
      .ok (d.withMetadata (some (insertOrReplace (d.metadata.getD []) key v))) := by
  unfold ServiceDef.set_metadata setMetadataCore
  cases hm : d.metadata with
  | none =>
    simp only [hm]
    rw [if_neg (by simp [hasKey_long _ _ h])]
    try rfl
  | some m =>
    simp only [hm]
    rw [if_neg (by simp [hasKey_long _ _ h])]
    try rfl

theorem setLabels_ok (L : List (String × JVal)) (d : ServiceDef)
    (m : List (String × JVal)) (hm : d.metadata = some m)
    (hL : ∀ kv ∈ L, 13 < kv.1.length) :
    setLabels d L = .ok (d.withMetadata (some
      (L.foldl (fun acc kv => insertOrReplace acc kv.1 kv.2) m))) := by
  induction L generalizing d m with
  | nil =>
    simp [setLabels, withMetadata_self d m hm]
  | cons kv rest ih =>
    obtain ⟨k, v⟩ := kv
    have hk : 13 < k.length := hL (k, v) (List.mem_cons_self _ _)
    have hstep := set_metadata_long d k v hk
    rw [hm] at hstep
    simp only [Option.getD_some] at hstep
    have ihr := ih (d.withMetadata (some (insertOrReplace m k v)))
      (insertOrReplace m k v) rfl (fun x hx => hL x (List.mem_cons_of_mem _ hx))
    simp only [setLabels, hstep, ihr, withMetadata_withMetadata, List.foldl_cons]

/-! ### Helper lemmas: Traefik label keys -/

theorem length_append3 (a n b : String) :
    (a ++ n ++ b).length = a.length + n.length + b.length := by
  rw [String.length_append, String.length_append]

theorem enableKey_length : ("traefik.enable" : String).length = 14 := rfl

theorem portKey_length (n : String) :
    ("traefik.http.services." ++ n ++ ".loadbalancer.server.port").length =
      n.length + 47 := by
  rw [length_append3,
    show ("traefik.http.services." : String).length = 22 from rfl,
    show (".loadbalancer.server.port" : String).length = 25 from rfl]
  omega

theorem ruleKey_length (n : String) :
    ("traefik.http.routers." ++ n ++ ".rule").length = n.length + 26 := by
  rw [length_append3,
    show ("traefik.http.routers." : String).length = 21 from rfl,
    show (".rule" : String).length = 5 from rfl]
  omega

theorem serviceKey_length (n : String) :
    ("traefik.http.routers." ++ n ++ ".service").length = n.length + 29 := by
  rw [length_append3,
    show ("traefik.http.routers." : String).length = 21 from rfl,
    show (".service" : String).length = 8 from rfl]
  omega

theorem tlsKey_length (n : String) :
    ("traefik.http.routers." ++ n ++ ".tls").length = n.length + 25 := by
  rw [length_append3,
    show ("traefik.http.routers." : String).length = 21 from rfl,
    show (".tls" : String).length = 4 from rfl]
  omega

theorem restLabels_long (c : TraefikConfig) (n : String) :
    ∀ kv ∈ c.portLabels n ++ c.routeLabels n ++ c.serviceLabels n ++ c.tlsLabels n,
      24 < kv.1.length := by
  intro kv hkv
  simp only [List.mem_append] at hkv
  rcases hkv with ((hp | hr) | hs) | ht
  · rw [TraefikConfig.portLabels] at hp
    rcases hc : c.port with _ | p
    · simp [hc] at hp
    · by_cases hz : p ≠ 0
      · simp only [hc, if_pos hz, List.mem_singleton] at hp
        rw [hp, portKey_length]
        omega
      · simp [hc, if_neg hz] at hp
  · rw [TraefikConfig.routeLabels] at hr
    rcases hc : c.routes with _ | rs
    · simp [hc] at hr
    · by_cases hz : rs ≠ []
      · simp only [hc, if_pos hz, List.mem_singleton] at hr
        rw [hr, ruleKey_length]
        omega
      · simp [hc, if_neg hz] at hr
  · rw [TraefikConfig.serviceLabels] at hs
    rcases hc : c.service with _ | sv
    · simp [hc] at hs
    · by_cases hz : sv ≠ ""
      · simp only [hc, if_pos hz, List.mem_singleton] at hs
        rw [hs, serviceKey_length]
        omega
      · simp [hc, if_neg hz] at hs
  · rw [TraefikConfig.tlsLabels] at ht
    by_cases hz : c.enableTls = true
    · simp only [if_pos hz, List.mem_singleton] at ht
      rw [ht, tlsKey_length]
      omega
    · simp [if_neg hz] at ht

theorem registerService_ok_form (tls : Bool) (d : ServiceDef) (c : TraefikConfig)
    (haa : addAllRoutes ⟨tls, some d.entrypoint.listens_on, none, none⟩
      (routesIter d.entrypoint.routes) = .ok c) :
    registerService tls d = .ok (d.withMetadata (some
      ((c.portLabels d.name ++ c.routeLabels d.name ++ c.serviceLabels d.name ++
          c.tlsLabels d.name).foldl
        (fun acc kv => insertOrReplace acc kv.1 kv.2)
        (insertOrReplace (d.metadata.getD []) "traefik.enable" (.b true))))) := by
  have h1 : registerService tls d = setLabels d (c.toLabels d.name) := by
    rw [registerService, haa]
  rw [h1, TraefikConfig.toLabels]
  rw [show setLabels d (("traefik.enable", JVal.b true) ::
      (c.portLabels d.name ++ c.routeLabels d.name ++ c.serviceLabels d.name ++
        c.tlsLabels d.name)) =
    match d.set_metadata "traefik.enable" (.b true) false with
    | .error e => .error e
    | .ok s2 => setLabels s2 (c.portLabels d.name ++ c.routeLabels d.name ++
        c.serviceLabels d.name ++ c.tlsLabels d.name) from rfl]
  rw [set_metadata_long d "traefik.enable" (.b true) (by decide)]
  exact setLabels_ok _ _ _ rfl
    (fun kv hkv => by have := restLabels_long c d.name kv hkv; omega)

/-! ### Claims C3, C4, C5, C10 -/

/-- C3: the claim says a bare-string entrypoint `s` becomes the sole
route, so registration should emit exactly one `PathPrefix` clause for
`s`.  The code iterates the string character by character instead: for
the service `ab` with entrypoint `/ab` the rule label holds one clause
per character, and for the service `foo` (default route `/foo`, which
repeats the character `o`) registration raises a duplicate-route error.
This theorem evaluates the embedded code at those failing inputs. -/
theorem traefik_string_entrypoint_per_character_routes :
    (registerService false serviceAB = .ok registeredAB ∧
      List.lookup "traefik.http.routers.ab.rule" (registeredAB.metadata.getD []) =
        some (.s "PathPrefix(`/`) || PathPrefix(`a`) || PathPrefix(`b`)")) ∧
    "PathPrefix(`/`) || PathPrefix(`a`) || PathPrefix(`b`)" ≠ "PathPrefix(`/ab`)" ∧
    registerService false serviceFoo = .error (.duplicateRoute "o") := by
  refine ⟨⟨rfl, rfl⟩, by decide, rfl⟩

/-- C4: the claim says `set_metadata(k, v)` with `override=False` raises
when the metadata already holds `k`.  The code tests membership in the
top-level definition dictionary instead of in the metadata mapping, so
for a metadata-only key such as `foo` the call silently replaces the
value; with `override=True` it also replaces it.  This theorem evaluates
the embedded code at that failing input. -/
theorem set_metadata_existing_key_not_rejected :
    serviceWithFooMeta.set_metadata "foo" (.i 2) false =
      .ok (serviceWithFooMeta.withMetadata (some [("foo", .i 2)])) ∧
    serviceWithFooMeta.set_metadata "foo" (.i 2) true =
      .ok (serviceWithFooMeta.withMetadata (some [("foo", .i 2)])) :=
  ⟨rfl, rfl⟩

/-- C10: every service `register_service` returns — group members and the
router's own synthetic service alike — carries the metadata label
`traefik.enable = true`, because `to_labels` writes it unconditionally
before any other label. -/
theorem traefik_registered_services_have_enable_label (tls : Bool) (d r : ServiceDef)
    (h : registerService tls d = .ok r) :
    List.lookup "traefik.enable" (r.metadata.getD []) = some (.b true) := by
  rcases haa : addAllRoutes ⟨tls, some d.entrypoint.listens_on, none, none⟩
      (routesIter d.entrypoint.routes) with e | c
  · rw [registerService, haa] at h
    simp at h
  · rw [registerService_ok_form tls d c haa, Except.ok.injEq] at h
    subst h
    show List.lookup "traefik.enable"
      ((c.portLabels d.name ++ c.routeLabels d.name ++ c.serviceLabels d.name ++
          c.tlsLabels d.name).foldl
        (fun acc kv => insertOrReplace acc kv.1 kv.2)
        (insertOrReplace (d.metadata.getD []) "traefik.enable" (.b true))) =
      some (.b true)
    rw [lookup_foldl_ior_ne _ _ (fun kv hkv e => by
        have := restLabels_long c d.name kv hkv
        rw [e, enableKey_length] at this
        omega),
      lookup_insertOrReplace_self]

/-- Witness for C10: the router's own synthetic service, registered with
the default provider arguments, carries the `traefik.enable` label. -/
theorem traefik_registered_services_have_enable_label_witness :
    List.lookup "traefik.enable" (routerRegistered.metadata.getD []) = some (.b true) :=
  traefik_registered_services_have_enable_label false routerService routerRegistered rfl

/-- C5: for a service whose entrypoint is the object form with routes
`/foo`, `/bar` and `listens-on: 8080`, registration succeeds and the
returned service's metadata holds the rule label with the two
`PathPrefix` clauses joined in declaration order and the load-balancer
port label `8080`, whatever the provider's TLS argument is. -/
theorem traefik_object_entrypoint_labels (d : ServiceDef) (tls : Bool)
    (h : d.entrypointDef = some (.obj ["/foo", "/bar"] (some 8080))) :
    ∃ r, registerService tls d = .ok r ∧
      List.lookup ("traefik.http.routers." ++ d.name ++ ".rule") (r.metadata.getD []) =
        some (.s "PathPrefix(`/foo`) || PathPrefix(`/bar`)") ∧
      List.lookup ("traefik.http.services." ++ d.name ++ ".loadbalancer.server.port")
        (r.metadata.getD []) = some (.i 8080) := by
  have hep : d.entrypoint = ⟨.list ["/foo", "/bar"], 8080⟩ := by
    rw [ServiceDef.entrypoint, h]
    rfl
  have hnePR : ("traefik.http.services." ++ d.name ++ ".loadbalancer.server.port") ≠
      ("traefik.http.routers." ++ d.name ++ ".rule") := fun e => by
    have := congrArg String.length e
    rw [portKey_length, ruleKey_length] at this
    omega
  have hneRT : ("traefik.http.routers." ++ d.name ++ ".rule") ≠
      ("traefik.http.routers." ++ d.name ++ ".tls") := fun e => by
    have := congrArg String.length e
    rw [ruleKey_length, tlsKey_length] at this
    omega
  have hnePT : ("traefik.http.services." ++ d.name ++ ".loadbalancer.server.port") ≠
      ("traefik.http.routers." ++ d.name ++ ".tls") := fun e => by
    have := congrArg String.length e
    rw [portKey_length, tlsKey_length] at this
    omega
  cases tls with
  | false =>
    have haa : addAllRoutes ⟨false, some d.entrypoint.listens_on, none, none⟩
        (routesIter d.entrypoint.routes) =
        .ok ⟨false, some 8080, some ["/foo", "/bar"], none⟩ := by
      rw [hep]
      rfl
    refine ⟨_, registerService_ok_form false d _ haa, ?_, ?_⟩
    · show List.lookup ("traefik.http.routers." ++ d.name ++ ".rule")
        (insertOrReplace
          (insertOrReplace
            (insertOrReplace (d.metadata.getD []) "traefik.enable" (.b true))
            ("traefik.http.services." ++ d.name ++ ".loadbalancer.server.port") (.i 8080))
          ("traefik.http.routers." ++ d.name ++ ".rule")
          (.s "PathPrefix(`/foo`) || PathPrefix(`/bar`)")) =
        some (.s "PathPrefix(`/foo`) || PathPrefix(`/bar`)")
      rw [lookup_insertOrReplace_self]
    · show List.lookup ("traefik.http.services." ++ d.name ++ ".loadbalancer.server.port")
        (insertOrReplace
          (insertOrReplace
            (insertOrReplace (d.metadata.getD []) "traefik.enable" (.b true))
            ("traefik.http.services." ++ d.name ++ ".loadbalancer.server.port") (.i 8080))
          ("traefik.http.routers." ++ d.name ++ ".rule")
          (.s "PathPrefix(`/foo`) || PathPrefix(`/bar`)")) =
        some (.i 8080)
      rw [lookup_insertOrReplace_ne _ _ _ _ hnePR, lookup_insertOrReplace_self]
  | true =>
    have haa : addAllRoutes ⟨true, some d.entrypoint.listens_on, none, none⟩
        (routesIter d.entrypoint.routes) =
        .ok ⟨true, some 8080, some ["/foo", "/bar"], none⟩ := by
      rw [hep]
      rfl
    refine ⟨_, registerService_ok_form true d _ haa, ?_, ?_⟩
    · show List.lookup ("traefik.http.routers." ++ d.name ++ ".rule")
        (insertOrReplace
          (insertOrReplace
            (insertOrReplace
              (insertOrReplace (d.metadata.getD []) "traefik.enable" (.b true))
              ("traefik.http.services." ++ d.name ++ ".loadbalancer.server.port") (.i 8080))
            ("traefik.http.routers." ++ d.name ++ ".rule")
            (.s "PathPrefix(`/foo`) || PathPrefix(`/bar`)"))
          ("traefik.http.routers." ++ d.name ++ ".tls") (.b true)) =
        some (.s "PathPrefix(`/foo`) || PathPrefix(`/bar`)")
      rw [lookup_insertOrReplace_ne _ _ _ _ hneRT, lookup_insertOrReplace_self]
    · show List.lookup ("traefik.http.services." ++ d.name ++ ".loadbalancer.server.port")
        (insertOrReplace
          (insertOrReplace
            (insertOrReplace
              (insertOrReplace (d.metadata.getD []) "traefik.enable" (.b true))
              ("traefik.http.services." ++ d.name ++ ".loadbalancer.server.port") (.i 8080))
            ("traefik.http.routers." ++ d.name ++ ".rule")
            (.s "PathPrefix(`/foo`) || PathPrefix(`/bar`)"))
          ("traefik.http.routers." ++ d.name ++ ".tls") (.b true)) =
        some (.i 8080)
      rw [lookup_insertOrReplace_ne _ _ _ _ hnePT,
        lookup_insertOrReplace_ne _ _ _ _ hnePR, lookup_insertOrReplace_self]

/-- Witness for C5: the concrete service `svc` with that object-form
entrypoint. -/
theorem traefik_object_entrypoint_labels_witness :
    ∃ r, registerService false fooBarService = .ok r ∧
      List.lookup ("traefik.http.routers." ++ fooBarService.name ++ ".rule")
        (r.metadata.getD []) = some (.s "PathPrefix(`/foo`) || PathPrefix(`/bar`)") ∧
      List.lookup ("traefik.http.services." ++ fooBarService.name ++
          ".loadbalancer.server.port") (r.metadata.getD []) = some (.i 8080) :=
  traefik_object_entrypoint_labels fooBarService false rfl

/-- C1: loading a saved manifest reproduces the manifest exactly — its
name, its entry count and order, and every entry's fields (type,
compose-file and is-deployable or image and source) in relative-path
form.  The hypotheses state what Python guarantees by construction:
every entry passed its constructor's path validation and its path is a
normalized `pathlib` value. -/
theorem buildManifest_load_save_round_trip (m : BuildManifest)
    (h : ∀ e ∈ m.entries, entryValid e ∧ entryNormalized e) :
    BuildManifest.load m.save = .ok m := by
  obtain ⟨name, entries⟩ := m
  show BuildManifest.load ⟨name, entries.map Entry.toDict⟩ = .ok ⟨name, entries⟩
  simp only [BuildManifest.load, loadEntries_save entries h, bind, Except.bind]

/-- Witness for C1: the round trip at a concrete three-entry manifest. -/
theorem buildManifest_load_save_round_trip_witness :
    BuildManifest.load exampleManifest.save = .ok exampleManifest :=
  buildManifest_load_save_round_trip exampleManifest (by decide)

/-- C6: entry construction succeeds exactly when the path's final
component is the required filename (`docker-compose.yml` for a
Docker Compose entry, `Dockerfile` for an image entry), and raises the
bad-file-path error otherwise — at construction time, before any save —
so a manifest can only ever hold validated entries. -/
theorem entry_construction_requires_filename (p : GPath) (dep : Bool)
    (img : String) (src : GPath) :
    (mkDockerComposeEntry p dep = .ok (.dockerCompose p dep) ↔
      p.name = "docker-compose.yml") ∧
    ((∃ err, mkDockerComposeEntry p dep = .error err) ↔
      p.name ≠ "docker-compose.yml") ∧
    (mkImageEntry img src = .ok (.image img src) ↔ src.name = "Dockerfile") ∧
    ((∃ err, mkImageEntry img src = .error err) ↔ src.name ≠ "Dockerfile") := by
  refine ⟨?_, ?_, ?_, ?_⟩
  · by_cases hp : p.name = "docker-compose.yml" <;> simp [mkDockerComposeEntry, hp]
  · by_cases hp : p.name = "docker-compose.yml" <;> simp [mkDockerComposeEntry, hp]
  · by_cases hs : src.name = "Dockerfile" <;> simp [mkImageEntry, hs]
  · by_cases hs : src.name = "Dockerfile" <;> simp [mkImageEntry, hs]

/-! ### Claim C2: the CLI build loop -/

/-- Counterexample for C2: with two groups where the first fails, the
loop attempts only the first group; the second group is never attempted,
contradicting the claim that every remaining group is still built. -/
theorem cli_build_counterexample :
    (cmdBuildLoop failingOnZero [0, 1]).1 = [0] ∧
    (1 : Nat) ∉ (cmdBuildLoop failingOnZero [0, 1]).1 := by
  decide

/-- C2 (amended): when building a group fails, the CLI re-raises the
failure (as a `CliException`) and stops — the failing group is the last
one attempted and no later group is processed. -/
theorem cli_build_aborts_on_group_failure {γ ε : Type} (build : γ → Except ε Unit)
    (g : γ) (rest : List γ) (e : ε) (h : build g = .error e) :
    cmdBuildLoop build (g :: rest) = ([g], some e) := by
  simp [cmdBuildLoop, h]

/-- Witness for the amended C2: the concrete failing first group. -/
theorem cli_build_aborts_on_group_failure_witness :
    cmdBuildLoop failingOnZero [0, 1] = ([0], some "build failed") :=
  cli_build_aborts_on_group_failure failingOnZero 0 [1] "build failed" rfl

/-! ### Claims C7 and C8: the Compose service conversion -/

/-- C7: the Compose-service conversion never leaves an empty list or an
empty dict as any key's value — such keys are deleted before the dict is
returned. -/
theorem compose_conversion_omits_empty_collections (service : ServiceDef)
    (network tag : String) :
    ((convertToComposeService service network tag).2.all
      (fun kv => !isEmptyColl kv.2)) = true := by
  rw [List.all_eq_true]
  intro kv hkv
  have hp := (List.mem_filter.mp hkv).2
  cases hv : kv.2 with
  | s v => simp [isEmptyColl]
  | i v => simp [isEmptyColl]
  | b v => simp [isEmptyColl]
  | arr l =>
    cases l with
    | nil => rw [hv] at hp; simp [pyLen] at hp
    | cons a as => simp [isEmptyColl]
  | obj l =>
    cases l with
    | nil => rw [hv] at hp; simp [pyLen] at hp
    | cons a as => simp [isEmptyColl]

theorem lookup_append_right (A B : List (String × JVal)) (k : String)
    (hA : ∀ kv ∈ A, kv.1 ≠ k) : List.lookup k (A ++ B) = List.lookup k B := by
  induction A with
  | nil => rfl
  | cons kv rest ih =>
    obtain ⟨k2, v2⟩ := kv
    have hbeq : (k == k2) = false :=
      beq_eq_false_iff_ne.mpr (Ne.symm (hA (k2, v2) (List.mem_cons_self _ _)))
    simp [List.lookup, hbeq, ih (fun x hx => hA x (List.mem_cons_of_mem _ hx))]

theorem buildImagePart_keys (service : ServiceDef) (tag : String) :
    ∀ kv ∈ buildImagePart service tag, kv.1 = "image" ∨ kv.1 = "build" := by
  intro kv hkv
  simp only [buildImagePart, List.mem_cons, List.not_mem_nil, or_false] at hkv
  rcases hkv with h | h
  · left; rw [h]
  · right; rw [h]

theorem composeImagePart_keys (service : ServiceDef) (tag : String) :
    ∀ kv ∈ composeImagePart service tag, kv.1 = "image" ∨ kv.1 = "build" := by
  intro kv hkv
  rw [composeImagePart] at hkv
  rcases hi : service.image with _ | img
  · simp only [hi] at hkv
    exact buildImagePart_keys service tag kv hkv
  · simp only [hi] at hkv
    by_cases he : img ≠ ""
    · rw [if_pos he] at hkv
      simp only [List.mem_singleton] at hkv
      left; rw [hkv]
    · rw [if_neg he] at hkv
      exact buildImagePart_keys service tag kv hkv

theorem composePre_keys (service : ServiceDef) (network tag : String) :
    ∀ kv ∈ composePre service network tag, kv.1 ≠ "healthcheck" := by
  intro kv hkv
  rw [composePre] at hkv
  rcases List.mem_cons.mp hkv with h1 | h2
  · rw [h1]; exact fun e => by simp at e
  · rcases List.mem_append.mp h2 with h3 | h4
    · rcases composeImagePart_keys service tag kv h3 with h | h <;> rw [h] <;>
        exact fun e => by simp at e
    · simp only [List.mem_cons, List.not_mem_nil, or_false] at h4
      rcases h4 with h | h | h | h | h <;> rw [h] <;> exact fun e => by simp at e

/-- C8: a service that declares no `healthcheck` key converts to a
Compose service whose `healthcheck` entry is exactly `disable: true`. -/
theorem compose_no_healthcheck_disables (service : ServiceDef) (network tag : String)
    (h : service.healthcheck = none) :
    List.lookup "healthcheck" (convertToComposeService service network tag).2 =
      some (.obj [("disable", .b true)]) := by
  have hh : composeHealth service = [("healthcheck", .obj [("disable", .b true)])] := by
    rw [composeHealth, h]
    rfl
  show List.lookup "healthcheck"
    ((composePre service network tag ++ composeHealth service ++
      composeLabelsPart service).filter (fun kv => !(pyLen kv.2 == some 0))) = _
  rw [hh, List.filter_append, List.filter_append]
  rw [show List.filter (fun kv => !(pyLen kv.2 == some 0))
      [("healthcheck", JVal.obj [("disable", JVal.b true)])] =
    [("healthcheck", JVal.obj [("disable", JVal.b true)])] from rfl]
  rw [List.append_assoc]
  rw [lookup_append_right _ _ _
    (fun kv hkv => composePre_keys service network tag kv (List.mem_filter.mp hkv).1)]
  simp [List.lookup]

/-- Witness for C8: a minimal service with no healthcheck key. -/
theorem compose_no_healthcheck_disables_witness :
    List.lookup "healthcheck" (convertToComposeService (emptyService "svc") "net" "custom").2 =
      some (.obj [("disable", .b true)]) :=
  compose_no_healthcheck_disables (emptyService "svc") "net" "custom" rfl

/-! ### Claim C9: the image target's build-folder reset -/

theorem mem_rmtree (fs : FileSys) (root p : GPath) :
    p ∈ (fs.rmtree root).paths ↔ p ∈ fs.paths ∧ underOrEq root p = false := by
  simp [FileSys.rmtree, List.mem_filter]

theorem mem_mkdirParents (fs : FileSys) (q a : GPath) :
    a ∈ (fs.mkdirParents q).paths ↔ a ∈ fs.paths ∨ a ∈ ancestors q := by
  simp only [FileSys.mkdirParents, List.mem_append, List.mem_filter]
  constructor
  · rintro (h | ⟨h1, _⟩)
    · exact .inl h
    · exact .inr h1
  · intro h
    rcases h with h | h
    · exact .inl h
    · by_cases hm : a ∈ fs.paths
      · exact .inl hm
      · exact .inr ⟨h, by simp [hm]⟩

theorem root_mem_ancestors (p : GPath) : p ∈ ancestors p := by
  rw [ancestors]
  refine List.mem_map.mpr ⟨p.parts.length, List.mem_range.mpr (by omega), ?_⟩
  rw [List.take_length]

theorem leadSegs_refl : ∀ l : List String, leadSegs l l = true
  | [] => rfl
  | a :: as => by simp [leadSegs, leadSegs_refl as]

theorem leadSegs_length : ∀ {a b : List String}, leadSegs a b = true → a.length ≤ b.length
  | [], _, _ => by simp
  | _ :: _, [], h => by simp [leadSegs] at h
  | a :: as, b :: bs, h => by
    simp only [leadSegs, Bool.and_eq_true] at h
    have := leadSegs_length h.2
    simp only [List.length_cons]
    omega

theorem leadSegs_eq_of_length :
    ∀ {a b : List String}, leadSegs a b = true → b.length ≤ a.length → a = b
  | [], [], _, _ => rfl
  | [], _ :: _, _, h2 => by simp at h2
  | _ :: _, [], h, _ => by simp [leadSegs] at h
  | a :: as, b :: bs, h, h2 => by
    simp only [leadSegs, Bool.and_eq_true] at h
    have hab : a = b := eq_of_beq h.1
    have htail : as = bs := leadSegs_eq_of_length h.2 (by
      simp only [List.length_cons] at h2
      omega)
    rw [hab, htail]

theorem ancestors_spec (q a : GPath) (h : a ∈ ancestors q) :
    a.absolute = q.absolute ∧ ∃ i, a.parts = q.parts.take i := by
  rw [ancestors] at h
  obtain ⟨i, _, rfl⟩ := List.mem_map.mp h
  exact ⟨rfl, i, rfl⟩

theorem underOrEq_ancestor (q a : GPath) (ha : a ∈ ancestors q)
    (h : underOrEq q a = true) : a = q := by
  obtain ⟨habs, i, hparts⟩ := ancestors_spec q a ha
  simp only [underOrEq, Bool.and_eq_true] at h
  have hlen : a.parts.length ≤ q.parts.length := by
    rw [hparts, List.length_take]
    omega
  have heq : q.parts = a.parts := leadSegs_eq_of_length h.2 hlen
  calc a = ⟨a.absolute, a.parts⟩ := rfl
    _ = ⟨q.absolute, q.parts⟩ := by rw [habs, heq]
    _ = q := rfl

/-- C9: whenever `ImageTarget.build` runs against an existing build
folder, the whole folder tree is removed and the folder is recreated
before any pipeline stage runs, with no overwrite option involved, and
no path outside the build folder changes state. -/
theorem imageTarget_build_resets_build_folder (fs : FileSys) (root : GPath)
    (pipeline : FileSys → FileSys)
    (hclosed : ancestorClosed fs) (hex : fs.nodeExists root = true) :
    (prepareBuildFolder fs root).nodeExists root = true ∧
    (∀ p, strictlyUnder root p = true →
      (prepareBuildFolder fs root).nodeExists p = false) ∧
    (∀ p, underOrEq root p = false →
      (prepareBuildFolder fs root).nodeExists p = fs.nodeExists p) ∧
    imageTargetBuild pipeline root fs = pipeline (prepareBuildFolder fs root) := by
  have hroot : root ∈ fs.paths := of_decide_eq_true hex
  have hprep : prepareBuildFolder fs root = (fs.rmtree root).mkdirParents root := by
    simp [prepareBuildFolder, hex]
  refine ⟨?_, ?_, ?_, rfl⟩
  · rw [hprep, FileSys.nodeExists]
    exact decide_eq_true ((mem_mkdirParents _ _ _).mpr (.inr (root_mem_ancestors root)))
  · intro p hsu
    simp only [strictlyUnder, Bool.and_eq_true] at hsu
    rw [hprep, FileSys.nodeExists]
    apply decide_eq_false
    intro hmem
    rcases (mem_mkdirParents _ _ _).mp hmem with hin | hanc
    · have := (mem_rmtree _ _ _).mp hin
      rw [this.2] at hsu
      exact Bool.false_ne_true hsu.1
    · have hpr : p = root := underOrEq_ancestor root p hanc hsu.1
      rw [hpr] at hsu
      simp at hsu
  · intro p hout
    rw [hprep, FileSys.nodeExists, FileSys.nodeExists]
    apply decide_eq_decide.mpr
    constructor
    · intro hmem
      rcases (mem_mkdirParents _ _ _).mp hmem with hin | hanc
      · exact ((mem_rmtree _ _ _).mp hin).1
      · exact hclosed root hroot p hanc
    · intro hmem
      exact (mem_mkdirParents _ _ _).mpr (.inl ((mem_rmtree _ _ _).mpr ⟨hmem, hout⟩))

/-- Witness for C9: on the concrete filesystem the reset keeps the build
folder, removes its contents and leaves the sibling untouched. -/
theorem imageTarget_build_resets_build_folder_witness :
    (prepareBuildFolder exampleFs exampleRoot).nodeExists exampleRoot = true ∧
    (prepareBuildFolder exampleFs exampleRoot).nodeExists ⟨false, ["build", "sub"]⟩ = false ∧
    (prepareBuildFolder exampleFs exampleRoot).nodeExists ⟨false, ["other"]⟩ =
      exampleFs.nodeExists ⟨false, ["other"]⟩ := by
  obtain ⟨h1, h2, h3, _⟩ := imageTarget_build_resets_build_folder exampleFs exampleRoot
    id (by decide) (by decide)
  exact ⟨h1, h2 _ (by decide), h3 _ (by decide)⟩

end Gantry
